import Mathlib

/-!
Verification of the pagination/cursor engine of springboard-pgnation-tool.

The model is a shallow embedding of `src/index.js` (and, for the page-callback
cursor, the alternate module `src/unnamed/part_000`).  Network effects are made
explicit:

* a single page fetch is a function from the attempt index to a transport
  outcome (`Except String (Response α)`), so retry behaviour is observable;
* the page loop takes a composed fetch `Nat → Except FetchErr (Response α)`
  giving, for every page number, the result of `getRawPage` for that page —
  since pages are fetched with strictly increasing numbers, this also models a
  collection whose reported page count changes between fetches;
* stateful consumer callbacks become state transformers `σ → ... → σ × Bool`,
  the boolean recording whether the callback invoked its `cancel`;
* the `while` loop is fuel-indexed; `none` means the fuel ran out, which never
  happens in the theorems below (the fuel hypotheses are discharged).

JavaScript `undefined` for the `pages` field is modelled by `Option Nat`:
`page < undefined` is `false`, which `loopCond` reproduces.
-/

/-- A Springboard tenant: subdomain plus bearer token (src/index.js lines 4-8). -/
structure Springboard where
  subDomain : String
  token : String
deriving Repr, DecidableEq

/-- A cursor into a paginated collection (src/index.js lines 10-16):
page number, subdomain of the owning tenant, and collection path. -/
structure Cursor where
  page : Nat
  subDomain : String
  path : String
deriving Repr, DecidableEq

/-- The decoded JSON body of a page response (spec wire format, §6):
`results` array, optional numeric `pages` field (`none` models an absent or
undefined field), and optional `error` indicator field. -/
structure Response (α : Type) where
  results : List α
  pages : Option Nat
  error : Option String
deriving Repr, DecidableEq

/-- The error kinds of the engine: transport failure after retry exhaustion,
semantic failure reported by the body's error field, and cross-tenant cursor
misuse (spec §7). -/
inductive FetchErr where
  | transport (msg : String)
  | remote (msg : String)
  | cursorMismatch
deriving Repr, DecidableEq

/-- Modelled from the spec: the retry collaborator (`p-retry`), an external
dependency whose source is not part of this repository.  Per §6 it wraps a
retryable operation, retries on failure up to a fixed attempt count, and
re-raises the last failure on exhaustion.  `op i` is the outcome of the i-th
call to the underlying operation; the second component of the result counts
the calls made.  `fuel` is the number of retries still allowed: at `0` the
current attempt's outcome is returned as is (last failure re-raised). -/
def retryGo (op : Nat → Except String β) : Nat → Nat → Except String β × Nat
  | i, 0 => (op i, i + 1)
  | i, fuel + 1 =>
    match op i with
    | Except.ok v => (Except.ok v, i + 1)
    | Except.error _ => retryGo op (i + 1) fuel

/-- Modelled from the spec: run the retry collaborator with a total attempt
bound (§6 fixes the attempt count at 5). -/
def retryRun (attempts : Nat) (op : Nat → Except String β) : Except String β × Nat :=
  retryGo op 0 (attempts - 1)

/-- Embeds `getRawPage` (src/index.js lines 23-44): the page fetch is run
through the retry collaborator with the fixed bound, and afterwards the decoded
body is checked for the `error` indicator field, which raises a RemoteError
without any retry.  The result is paired with the number of calls made to the
underlying fetch operation. -/
def getRawPage (op : Nat → Except String (Response α)) :
    Except FetchErr (Response α) × Nat :=
  let r := retryRun 5 op
  match r.1 with
  | Except.error msg => (Except.error (FetchErr.transport msg), r.2)
  | Except.ok data =>
    match data.error with
    | some msg => (Except.error (FetchErr.remote msg), r.2)
    | none => (Except.ok data, r.2)

/-- The loop condition `page < pages` of src/index.js line 70, where `pages`
may be `undefined` (modelled `none`): any comparison with `undefined` is
false. -/
def loopCond (page : Nat) (pages : Option Nat) : Bool :=
  match pages with
  | some p => decide (page < p)
  | none => false

/-- Embeds the `while` loop of `iteratePages` (src/index.js lines 60-93).
`fetch pg` is the composed `getRawPage` outcome for page `pg`; `consumer` is
the page callback as a state transformer whose boolean result records whether
it called `cancel`.  Returns the final consumer state, the list of page
numbers fetched in order, and the propagated error if a fetch failed; `none`
when the fuel ran out. -/
def iterGo (fetch : Nat → Except FetchErr (Response α))
    (consumer : σ → List α → σ × Bool) :
    Nat → Nat → Option Nat → σ → Option (σ × List Nat × Option FetchErr)
  | 0, _, _, _ => none
  | fuel + 1, page, pages, s =>
    if loopCond page pages then
      match fetch (page + 1) with
      | Except.error e => some (s, [page + 1], some e)
      | Except.ok data =>
        let r := consumer s data.results
        if r.2 then some (r.1, [page + 1], none)
        else
          match iterGo fetch consumer fuel (page + 1) data.pages r.1 with
          | none => none
          | some (s2, tr, e) => some (s2, (page + 1) :: tr, e)
    else some (s, [], none)

/-- Embeds `iteratePages` (src/index.js lines 60-93): the loop starts at
`page = 0` with the sentinel `pages = 1`. -/
def iteratePages (fetch : Nat → Except FetchErr (Response α))
    (consumer : σ → List α → σ × Bool) (fuel : Nat) (s0 : σ) :
    Option (σ × List Nat × Option FetchErr) :=
  iterGo fetch consumer fuel 0 (some 1) s0

/-- Embeds the page callback built by `iterate` (src/index.js lines 111-126):
walk the page's records in order, invoking the element consumer on each; if the
element consumer cancels, stop walking and report cancellation to the page
level (the returned boolean is the page-level `cancel` having been called). -/
def elemWalk (consumer : σ → α → σ × Bool) : σ → List α → σ × Bool
  | s, [] => (s, false)
  | s, x :: xs =>
    let r := consumer s x
    if r.2 then (r.1, true) else elemWalk consumer r.1 xs

/-- Embeds `iterate` (src/index.js lines 110-129): page iteration whose page
callback walks each record. -/
def iterate (fetch : Nat → Except FetchErr (Response α))
    (consumer : σ → α → σ × Bool) (fuel : Nat) (s0 : σ) :
    Option (σ × List Nat × Option FetchErr) :=
  iteratePages fetch (elemWalk consumer) fuel s0

/-- Embeds `getAll` (src/index.js lines 138-148): iterate with a consumer that
appends every record to an in-memory list and never cancels. -/
def getAll (fetch : Nat → Except FetchErr (Response α)) (fuel : Nat) :
    Option (List α × List Nat × Option FetchErr) :=
  iterate fetch (fun acc x => (acc ++ [x], false)) fuel []

/-- The `PageData` shape returned by the cursor API (src/index.js
lines 150-155): the next cursor (or `none` on the last page) and the page's
elements. -/
structure PageData (α : Type) where
  next : Option Cursor
  elements : List α
deriving Repr, DecidableEq

/-- Embeds `getPage` (src/index.js lines 163-183).  `remote sub path pg` is the
composed `getRawPage` outcome for page `pg` of collection `path` on host
subdomain `sub`.  The cursor's subdomain is checked against the tenant before
any fetch; the second component counts fetches performed (0 or 1).  The next
cursor is a copy of the given cursor with the page number incremented, present
exactly when `cursor.page` is less than the freshly reported page count. -/
def getPage (remote : String → String → Nat → Except FetchErr (Response α))
    (springboard : Springboard) (cursor : Cursor) :
    Except FetchErr (PageData α) × Nat :=
  if cursor.subDomain ≠ springboard.subDomain then
    (Except.error FetchErr.cursorMismatch, 0)
  else
    match remote springboard.subDomain cursor.path cursor.page with
    | Except.error e => (Except.error e, 1)
    | Except.ok data =>
      let next : Option Cursor :=
        match data.pages with
        | some tp =>
          if cursor.page < tp then some { cursor with page := cursor.page + 1 } else none
        | none => none
      (Except.ok { next := next, elements := data.results }, 1)

/-- Embeds `getFirstPage` (src/index.js lines 191-196): `getPage` at a cursor
for page 1 of the given path on the tenant's own subdomain. -/
def getFirstPage (remote : String → String → Nat → Except FetchErr (Response α))
    (springboard : Springboard) (path : String) :
    Except FetchErr (PageData α) × Nat :=
  getPage remote springboard { page := 1, subDomain := springboard.subDomain, path := path }

/-- The cursor shape of the alternate module (src/unnamed/part_000 line 74):
page number, the full tenant object, and the path. -/
structure CursorAlt where
  page : Nat
  springboard : Springboard
  path : String
deriving Repr, DecidableEq

/-- Embeds the `while` loop of the alternate module's `iteratePages`
(src/unnamed/part_000 lines 33-83), whose page consumer additionally receives
the cursor `{ page, springboard, path }` describing the just-fetched page. -/
def iterGoAlt (fetch : Nat → Except FetchErr (Response α))
    (springboard : Springboard) (path : String)
    (consumer : σ → List α → CursorAlt → σ × Bool) :
    Nat → Nat → Option Nat → σ → Option (σ × List Nat × Option FetchErr)
  | 0, _, _, _ => none
  | fuel + 1, page, pages, s =>
    if loopCond page pages then
      match fetch (page + 1) with
      | Except.error e => some (s, [page + 1], some e)
      | Except.ok data =>
        let r := consumer s data.results { page := page + 1, springboard := springboard, path := path }
        if r.2 then some (r.1, [page + 1], none)
        else
          match iterGoAlt fetch springboard path consumer fuel (page + 1) data.pages r.1 with
          | none => none
          | some (s2, tr, e) => some (s2, (page + 1) :: tr, e)
    else some (s, [], none)

/-- Embeds the alternate module's `iteratePages` (src/unnamed/part_000
lines 33-83). -/
def iteratePagesAlt (fetch : Nat → Except FetchErr (Response α))
    (springboard : Springboard) (path : String)
    (consumer : σ → List α → CursorAlt → σ × Bool) (fuel : Nat) (s0 : σ) :
    Option (σ × List Nat × Option FetchErr) :=
  iterGoAlt fetch springboard path consumer fuel 0 (some 1) s0

/-- A remote collection with a fixed page layout: fetching page `k` always
succeeds and returns the records `pagesL[k-1]` with the constant reported page
count `pagesL.length` and no error field. -/
def fixedRemote (pagesL : List (List α)) : Nat → Except FetchErr (Response α) :=
  fun k => Except.ok { results := pagesL.getD (k - 1) [], pages := some pagesL.length, error := none }

/-- An element consumer that counts delivered records and cancels exactly on
the k-th record delivered overall. -/
def cntC (k : Nat) : Nat → α → Nat × Bool :=
  fun c _ => (c + 1, decide (c + 1 = k))

/-- Number of records on the first `i` pages of a fixed layout. -/
def sumTake (pagesL : List (List α)) (i : Nat) : Nat :=
  ((pagesL.take i).map List.length).sum

/-- A page consumer that never invokes its cancel. -/
def noCancel (consumer : σ → List α → σ × Bool) : Prop :=
  ∀ s xs, (consumer s xs).2 = false

/-- A concrete three-page remote keyed by subdomain, path and page number,
used by the cursor-API witnesses: page `pg` holds the single record `pg` and
the reported page count is 3. -/
def demoRemote : String → String → Nat → Except FetchErr (Response Nat) :=
  fun _ _ pg => Except.ok { results := [pg], pages := some 3, error := none }

/-- A fetch operation whose decoded body always carries the error-indicator
field. -/
def demoErrOp : Nat → Except String (Response Nat) :=
  fun _ => Except.ok { results := [], pages := some 1, error := some "bad" }

/-- A fetch operation that fails transiently on its first two calls and
succeeds from the third call on. -/
def demoFlakyOp : Nat → Except String (Response Nat) :=
  fun i => if i < 2 then Except.error "net"
    else Except.ok { results := [9], pages := some 1, error := none }

/-- A fetch operation that fails at the transport level on every call. -/
def demoFailOp : Nat → Except String (Response Nat) :=
  fun _ => Except.error "net"

/-- The response bodies of a remote whose page 1 reports a page count of 3 but
whose page 2 (and any later page) lacks the numeric page-count field entirely
(a JSON body with no `pages` key). -/
def demoMidNoPagesBody : Nat → Response Nat :=
  fun i => if i = 1 then { results := [1], pages := some 3, error := none }
    else { results := [2], pages := none, error := none }

/-- The composed fetch over `demoMidNoPagesBody`: every page decodes
successfully. -/
def demoMidNoPagesFetch : Nat → Except FetchErr (Response Nat) :=
  fun i => Except.ok (demoMidNoPagesBody i)

/-- Left fold of a page consumer over a list of pages' record arrays,
ignoring the cancel flags: the consumer state after those pages have been
delivered in order. -/
def consumeAll (consumer : σ → List α → σ × Bool) : σ → List (List α) → σ
  | s, [] => s
  | s, xs :: rest => consumeAll consumer (consumer s xs).1 rest

/-- The page consumer of the alternate module's test double for C9: record
every (records, cursor) pair the callback receives, never cancel. -/
def recordingConsumer :
    List (List α × CursorAlt) → List α → CursorAlt → List (List α × CursorAlt) × Bool :=
  fun s elems cur => (s ++ [(elems, cur)], false)

/-! ### Helper lemmas -/

lemma elemWalk_push (acc xs : List α) :
    elemWalk (fun a x => (a ++ [x], false)) acc xs = (acc ++ xs, false) := by
  induction xs generalizing acc with
  | nil => simp [elemWalk]
  | cons x xs ih => simp [elemWalk, ih]

lemma iterGo_fixed_flatten (pagesL : List (List α)) :
    ∀ (fuel p : Nat) (pgs : Option Nat) (acc : List α),
      loopCond p pgs = decide (p < pagesL.length) →
      pagesL.length - p < fuel →
      iterGo (fixedRemote pagesL) (elemWalk (fun a x => (a ++ [x], false))) fuel p pgs acc =
        some (acc ++ (pagesL.drop p).flatten,
          List.range' (p + 1) (pagesL.length - p), none) := by
  intro fuel
  induction fuel with
  | zero => intro p pgs acc _ hf; omega
  | succ fuel ih =>
    intro p pgs acc hc hf
    by_cases hp : p < pagesL.length
    · have hc' : loopCond p pgs = true := by rw [hc]; simp [hp]
      have hf' : pagesL.length - (p + 1) < fuel := by omega
      have hrec := ih (p + 1) (some pagesL.length) (acc ++ pagesL.getD p []) rfl hf'
      have hdrop : pagesL.drop p = pagesL[p] :: pagesL.drop (p + 1) :=
        List.drop_eq_getElem_cons hp
      have hgd : pagesL.getD p [] = pagesL[p] := List.getD_eq_getElem pagesL [] hp
      have hn : pagesL.length - p = (pagesL.length - (p + 1)) + 1 := by omega
      simp only [iterGo, hc', if_true, fixedRemote, Nat.add_sub_cancel, elemWalk_push]
      rw [hrec]
      rw [hgd]
      simp only [Bool.false_eq_true, if_false, hdrop, hn, List.range'_succ,
        List.flatten_cons, List.append_assoc]
    · have hc' : loopCond p pgs = false := by rw [hc]; simp [hp]
      have hd : pagesL.drop p = [] := List.drop_eq_nil_of_le (by omega)
      have hn : pagesL.length - p = 0 := by omega
      simp [iterGo, hc', hd, hn]

/-! ### C1: getAll is exhaustive and ordered -/

/-- C1: for a collection with a fixed page layout (at least one page, as the
collection always has), `getAll` completes without error, fetches exactly the
pages 1..n once each in order, and returns exactly the concatenation of the
pages' results arrays in page-then-position order — so every record appears
exactly once and the count equals the collection's total. -/
theorem getAll_exhaustive (pagesL : List (List α)) (h : pagesL ≠ []) :
    getAll (fixedRemote pagesL) (pagesL.length + 1) =
      some (pagesL.flatten, List.range' 1 pagesL.length, none) := by
  have hn : 0 < pagesL.length := List.length_pos.mpr h
  have hmain := iterGo_fixed_flatten pagesL (pagesL.length + 1) 0 (some 1) []
    (by simp [loopCond, hn]) (by omega)
  simpa [getAll, iterate, iteratePages] using hmain

/-- Witness for C1 at the spec's example: 3 pages of 2 records each. -/
theorem getAll_exhaustive_witness :
    ([[0, 1], [2, 3], [4, 5]] : List (List Nat)) ≠ [] ∧
      getAll (fixedRemote ([[0, 1], [2, 3], [4, 5]] : List (List Nat))) 4 =
        some ([0, 1, 2, 3, 4, 5], [1, 2, 3], none) :=
  ⟨by decide,
    (getAll_exhaustive ([[0, 1], [2, 3], [4, 5]] : List (List Nat)) (by decide)).trans
      (by decide)⟩

/-! ### C2: cancellation precision -/

lemma sumTake_succ (pagesL : List (List α)) (p : Nat) (hp : p < pagesL.length) :
    sumTake pagesL (p + 1) = sumTake pagesL p + (pagesL.getD p []).length := by
  have hp2 : p < (pagesL.map List.length).length := by simpa using hp
  unfold sumTake
  rw [List.map_take, List.map_take, List.sum_take_succ _ p hp2,
    List.getD_eq_getElem pagesL [] hp]
  simp

lemma sumTake_mono (pagesL : List (List α)) {i j : Nat} (h : i ≤ j) :
    sumTake pagesL i ≤ sumTake pagesL j := by
  have hj : j = i + (j - i) := by omega
  rw [hj]
  unfold sumTake
  rw [List.take_add, List.map_append, List.sum_append]
  exact Nat.le_add_right _ _

lemma elemWalk_cnt (k : Nat) (xs : List α) :
    ∀ c, c < k →
      elemWalk (cntC k) c xs =
        if c + xs.length < k then (c + xs.length, false) else (k, true) := by
  induction xs with
  | nil => intro c hc; simp [elemWalk, hc]
  | cons x xs ih =>
    intro c hc
    by_cases he : c + 1 = k
    · have hnot : ¬ c + (xs.length + 1) < k := by omega
      simp [elemWalk, cntC, he, hnot]
    · have hlt : c + 1 < k := by omega
      have hih := ih (c + 1) hlt
      have harith : c + (x :: xs).length = c + 1 + xs.length := by
        simp only [List.length_cons]; omega
      simp only [elemWalk, cntC]
      rw [hih, harith]
      simp [he]

lemma iterGo_cnt (pagesL : List (List α)) (k q : Nat)
    (hqn : q ≤ pagesL.length)
    (hlo : sumTake pagesL (q - 1) < k) (hhi : k ≤ sumTake pagesL q) :
    ∀ (fuel p : Nat) (pgs : Option Nat),
      p < q → loopCond p pgs = true → q - p ≤ fuel →
      iterGo (fixedRemote pagesL) (elemWalk (cntC k)) fuel p pgs (sumTake pagesL p) =
        some (k, List.range' (p + 1) (q - p), none) := by
  intro fuel
  induction fuel with
  | zero => intro p pgs hpq _ hf; omega
  | succ fuel ih =>
    intro p pgs hpq hc hf
    have hpn : p < pagesL.length := by omega
    have hck : sumTake pagesL p < k :=
      lt_of_le_of_lt (sumTake_mono pagesL (by omega : p ≤ q - 1)) hlo
    have hsucc : sumTake pagesL p + (pagesL.getD p []).length = sumTake pagesL (p + 1) :=
      (sumTake_succ pagesL p hpn).symm
    by_cases hq1 : p + 1 = q
    · have hnotlt : ¬ sumTake pagesL p + (pagesL.getD p []).length < k := by
        rw [hsucc, hq1]; omega
      have hqp : q - p = 1 := by omega
      simp only [iterGo, hc, if_true, fixedRemote, Nat.add_sub_cancel]
      rw [elemWalk_cnt k _ _ hck, if_neg hnotlt, hqp]
      simp [List.range']
    · have hlt2 : sumTake pagesL (p + 1) < k :=
        lt_of_le_of_lt (sumTake_mono pagesL (by omega : p + 1 ≤ q - 1)) hlo
      have hlt : sumTake pagesL p + (pagesL.getD p []).length < k := by
        rw [hsucc]; exact hlt2
      have hcnext : loopCond (p + 1) (some pagesL.length) = true := by
        simp only [loopCond, decide_eq_true_eq]; omega
      have hrec := ih (p + 1) (some pagesL.length) (by omega) hcnext (by omega)
      have hqp : q - p = (q - (p + 1)) + 1 := by omega
      simp only [iterGo, hc, if_true, fixedRemote, Nat.add_sub_cancel]
      rw [elemWalk_cnt k _ _ hck, if_pos hlt]
      simp only [Bool.false_eq_true, if_false]
      rw [hsucc, hrec]
      simp [hqp, List.range'_succ]

/-- C2: cancellation precision for record-level iteration.  If the k-th record
overall lies on page p of a fixed layout (the first p-1 pages hold fewer than
k records and the first p hold at least k), then iterating with a consumer
that cancels on the k-th record delivered yields a final count of exactly k
delivered records, the remaining records of page p are skipped, the run ends
without error via the page-level cancel, and the fetched pages are exactly
1..p — no fetch occurs after the page of cancellation. -/
theorem iterate_cancel_precise (pagesL : List (List α)) (k p : Nat)
    (hp1 : 1 ≤ p) (hpn : p ≤ pagesL.length)
    (hlo : sumTake pagesL (p - 1) < k) (hhi : k ≤ sumTake pagesL p) :
    iterate (fixedRemote pagesL) (cntC k) (pagesL.length + 1) 0 =
      some (k, List.range' 1 p, none) := by
  have h0 : sumTake pagesL 0 = 0 := by simp [sumTake]
  have h := iterGo_cnt pagesL k p hpn hlo hhi (pagesL.length + 1) 0 (some 1)
    (by omega) (by simp [loopCond]) (by omega)
  rw [h0] at h
  simpa [iterate, iteratePages] using h

/-- Witness for C2 at the spec's example scenario: 3 pages of 2 records,
cancelling on the 4th record overall, which lies on page 2: exactly 4 records
delivered and exactly 2 page fetches. -/
theorem iterate_cancel_precise_witness :
    (1 ≤ 2 ∧ 2 ≤ ([[0, 1], [2, 3], [4, 5]] : List (List Nat)).length ∧
      sumTake ([[0, 1], [2, 3], [4, 5]] : List (List Nat)) 1 < 4 ∧
      4 ≤ sumTake ([[0, 1], [2, 3], [4, 5]] : List (List Nat)) 2) ∧
    iterate (fixedRemote ([[0, 1], [2, 3], [4, 5]] : List (List Nat))) (cntC 4) 4 0 =
      some (4, [1, 2], none) :=
  ⟨⟨by decide, by decide, by decide, by decide⟩,
    (iterate_cancel_precise ([[0, 1], [2, 3], [4, 5]] : List (List Nat)) 4 2
      (by decide) (by decide) (by decide) (by decide)).trans (by decide)⟩

/-! ### C3: page-loop state machine -/

lemma iterGo_complete (fetch : Nat → Except FetchErr (Response α))
    (consumer : σ → List α → σ × Bool) (hnc : noCancel consumer) :
    ∀ (fuel p : Nat) (pgs : Option Nat) (s s' : σ) (tr : List Nat),
      loopCond p pgs = true →
      iterGo fetch consumer fuel p pgs s = some (s', tr, none) →
      ∃ m, 1 ≤ m ∧ tr = List.range' (p + 1) m ∧
        (∀ i ∈ tr, ∃ d, fetch i = Except.ok d ∧
          (i < p + m → loopCond i d.pages = true)) ∧
        ∃ d, fetch (p + m) = Except.ok d ∧ loopCond (p + m) d.pages = false := by
  intro fuel
  induction fuel with
  | zero => intro p pgs s s' tr _ h; simp [iterGo] at h
  | succ fuel ih =>
    intro p pgs s s' tr hc h
    simp only [iterGo, hc, if_true] at h
    cases hf : fetch (p + 1) with
    | error e => rw [hf] at h; simp at h
    | ok data =>
      rw [hf] at h
      have hb : (consumer s data.results).2 = false := hnc s data.results
      simp only [hb, Bool.false_eq_true, if_false] at h
      cases hr : iterGo fetch consumer fuel (p + 1) data.pages (consumer s data.results).1 with
      | none => rw [hr] at h; simp at h
      | some out =>
        obtain ⟨s2, tr2, e2⟩ := out
        rw [hr] at h
        simp only [Option.some.injEq, Prod.mk.injEq] at h
        obtain ⟨hs2, htr, he2⟩ := h
        subst he2
        cases hcn : loopCond (p + 1) data.pages with
        | false =>
          cases fuel with
          | zero => simp [iterGo] at hr
          | succ f =>
            simp only [iterGo, hcn, Bool.false_eq_true, if_false,
              Option.some.injEq, Prod.mk.injEq] at hr
            have htr2 : tr2 = [] := by tauto
            refine ⟨1, le_refl 1, ?_, ?_, ⟨data, hf, hcn⟩⟩
            · rw [← htr, htr2]; simp [List.range']
            · intro i hi
              rw [← htr, htr2] at hi
              simp at hi
              subst hi
              exact ⟨data, hf, by omega⟩
        | true =>
          obtain ⟨m', hm1, htr2, hall, d', hfd, hfin⟩ :=
            ih (p + 1) data.pages (consumer s data.results).1 s2 tr2 hcn hr
          refine ⟨m' + 1, by omega, ?_, ?_, ?_⟩
          · rw [← htr, htr2, List.range'_succ]
          · intro i hi
            rw [← htr] at hi
            rcases List.mem_cons.mp hi with h1 | h2
            · subst h1
              exact ⟨data, hf, fun _ => hcn⟩
            · obtain ⟨d, hd, himp⟩ := hall i h2
              exact ⟨d, hd, fun hlt => himp (by omega)⟩
          · refine ⟨d', ?_, ?_⟩
            · rw [show p + (m' + 1) = p + 1 + m' by omega]; exact hfd
            · rw [show p + (m' + 1) = p + 1 + m' by omega]; exact hfin

/-- C3: the page-loop state machine.  The loop starts at `page = 0` with the
sentinel `pages = 1` (first conjunct, definitional).  For any run that
completes without error and whose consumer never cancels: some `m ≥ 1` pages
were fetched — the page numbers are exactly 1, 2, ..., m in order, so at least
one fetch occurs even for an empty collection and no page is re-fetched; every
fetched page decoded successfully; the loop continued after page `i < m`
exactly because page i's freshly reported total kept `i < totalPages` true;
and it stopped after page m exactly because page m's reported total made
`m < totalPages` false — so a page fetched at step k reporting a total ≤ k is
the last page fetched. -/
theorem iteratePages_state_machine (fetch : Nat → Except FetchErr (Response α))
    (consumer : σ → List α → σ × Bool) (fuel : Nat) (s0 s' : σ) (tr : List Nat)
    (hnc : noCancel consumer)
    (h : iteratePages fetch consumer fuel s0 = some (s', tr, none)) :
    iteratePages fetch consumer fuel s0 = iterGo fetch consumer fuel 0 (some 1) s0 ∧
    ∃ m, 1 ≤ m ∧ tr = List.range' 1 m ∧
      (∀ i ∈ tr, ∃ d, fetch i = Except.ok d ∧ (i < m → loopCond i d.pages = true)) ∧
      ∃ d, fetch m = Except.ok d ∧ loopCond m d.pages = false := by
  refine ⟨rfl, ?_⟩
  have hmain := iterGo_complete fetch consumer hnc fuel 0 (some 1) s0 s' tr
    (by simp [loopCond]) h
  simpa using hmain

/-- Witness for C3: two pages of one record each, a counting consumer that
never cancels. -/
theorem iteratePages_state_machine_witness :
    noCancel (fun (s : Nat) (xs : List Nat) => (s + xs.length, false)) ∧
    iteratePages (fixedRemote ([[7], [8]] : List (List Nat)))
        (fun (s : Nat) (xs : List Nat) => (s + xs.length, false)) 3 0 =
      some (2, [1, 2], none) ∧
    (iteratePages (fixedRemote ([[7], [8]] : List (List Nat)))
        (fun (s : Nat) (xs : List Nat) => (s + xs.length, false)) 3 0 =
      iterGo (fixedRemote ([[7], [8]] : List (List Nat)))
        (fun (s : Nat) (xs : List Nat) => (s + xs.length, false)) 3 0 (some 1) 0 ∧
    ∃ m, 1 ≤ m ∧ ([1, 2] : List Nat) = List.range' 1 m ∧
      (∀ i ∈ ([1, 2] : List Nat), ∃ d, fixedRemote ([[7], [8]] : List (List Nat)) i = Except.ok d ∧
        (i < m → loopCond i d.pages = true)) ∧
      ∃ d, fixedRemote ([[7], [8]] : List (List Nat)) m = Except.ok d ∧
        loopCond m d.pages = false) :=
  ⟨fun _ _ => rfl, by decide,
    iteratePages_state_machine (fixedRemote ([[7], [8]] : List (List Nat)))
      (fun (s : Nat) (xs : List Nat) => (s + xs.length, false)) 3 0 2 [1, 2]
      (fun _ _ => rfl) (by decide)⟩

/-! ### C4, C5, C6: the cursor API -/

/-- C4: for every tenant and every cursor whose stored subdomain differs from
the tenant's subdomain, `getPage` fails with the cursor-mismatch error and
performs zero fetches — the tenant check precedes any network access. -/
theorem getPage_mismatch (remote : String → String → Nat → Except FetchErr (Response α))
    (springboard : Springboard) (cursor : Cursor)
    (h : cursor.subDomain ≠ springboard.subDomain) :
    getPage remote springboard cursor = (Except.error FetchErr.cursorMismatch, 0) := by
  simp [getPage, h]

/-- Witness for C4. -/
theorem getPage_mismatch_witness :
    ("other" : String) ≠ "acme" ∧
    getPage (fun _ _ _ => Except.ok ({ results := [0], pages := some 1, error := none } : Response Nat))
        { subDomain := "acme", token := "t" } { page := 1, subDomain := "other", path := "items" } =
      (Except.error FetchErr.cursorMismatch, 0) :=
  ⟨by decide,
    getPage_mismatch (fun _ _ _ => Except.ok ({ results := [0], pages := some 1, error := none } : Response Nat))
      { subDomain := "acme", token := "t" } { page := 1, subDomain := "other", path := "items" }
      (by decide)⟩

lemma getPage_ok (remote : String → String → Nat → Except FetchErr (Response α))
    (springboard : Springboard) (cursor : Cursor) (d : Response α) (tp : Nat)
    (hsub : cursor.subDomain = springboard.subDomain)
    (hr : remote springboard.subDomain cursor.path cursor.page = Except.ok d)
    (hp : d.pages = some tp) :
    getPage remote springboard cursor =
      (Except.ok
        { next := if cursor.page < tp then some { cursor with page := cursor.page + 1 } else none,
          elements := d.results }, 1) := by
  simp [getPage, hsub, hr, hp]

/-- C5: for every successful `getPage` call (matching subdomain, the fetch of
`cursor.page`/`cursor.path` decodes to `d`, and `d` reports a page count
`tp`), exactly one fetch occurs, the returned elements are the fetched page's
records, and the next cursor is the given cursor with `page + 1` (same path
and subdomain) precisely when `cursor.page < tp`, else absent (`none`). -/
theorem getPage_success (remote : String → String → Nat → Except FetchErr (Response α))
    (springboard : Springboard) (cursor : Cursor) (d : Response α) (tp : Nat)
    (hsub : cursor.subDomain = springboard.subDomain)
    (hr : remote springboard.subDomain cursor.path cursor.page = Except.ok d)
    (hp : d.pages = some tp) :
    getPage remote springboard cursor =
      (Except.ok
        { next := if cursor.page < tp then some { cursor with page := cursor.page + 1 } else none,
          elements := d.results }, 1) :=
  getPage_ok remote springboard cursor d tp hsub hr hp

/-- Witness for C5: page 2 of a 3-page collection, so the next cursor is
page 3 with the same path and subdomain. -/
theorem getPage_success_witness :
    (("acme" : String) = "acme" ∧
      demoRemote "acme" "items" 2 =
        Except.ok ({ results := [2], pages := some 3, error := none } : Response Nat) ∧
      ({ results := [2], pages := some 3, error := none } : Response Nat).pages = some 3) ∧
    getPage demoRemote
        { subDomain := "acme", token := "t" } { page := 2, subDomain := "acme", path := "items" } =
      (Except.ok ({ next := some ({ page := 3, subDomain := "acme", path := "items" } : Cursor),
                    elements := [2] } : PageData Nat), 1) :=
  ⟨⟨rfl, rfl, rfl⟩,
    (getPage_success demoRemote
      { subDomain := "acme", token := "t" } { page := 2, subDomain := "acme", path := "items" }
      ({ results := [2], pages := some 3, error := none } : Response Nat) 3
      rfl rfl rfl).trans rfl⟩

lemma getPage_elements (remote : String → String → Nat → Except FetchErr (Response α))
    (springboard : Springboard) (cursor : Cursor) (d : Response α)
    (hsub : cursor.subDomain = springboard.subDomain)
    (hr : remote springboard.subDomain cursor.path cursor.page = Except.ok d) :
    ∃ pd, getPage remote springboard cursor = (Except.ok pd, 1) ∧ pd.elements = d.results := by
  unfold getPage
  rw [if_neg (by simp [hsub]), hr]
  exact ⟨_, rfl, rfl⟩

/-- C6: the cursor round trip.  `getFirstPage` is by definition `getPage` at a
page-1 cursor for the path (first conjunct).  If fetching page 1 reports a
page count above 1, its result carries the next cursor `page = 2` with the
same path and subdomain, and feeding that cursor back into `getPage` returns
exactly the elements obtained by directly fetching page 2 (the remote
responses being unchanged between the calls). -/
theorem cursor_round_trip (remote : String → String → Nat → Except FetchErr (Response α))
    (springboard : Springboard) (path : String) (d1 d2 : Response α) (tp : Nat)
    (h1 : remote springboard.subDomain path 1 = Except.ok d1)
    (hp : d1.pages = some tp) (htp : 1 < tp)
    (h2 : remote springboard.subDomain path 2 = Except.ok d2) :
    getFirstPage remote springboard path =
      getPage remote springboard { page := 1, subDomain := springboard.subDomain, path := path } ∧
    getFirstPage remote springboard path =
      (Except.ok ({ next := some { page := 2, subDomain := springboard.subDomain, path := path },
                    elements := d1.results } : PageData α), 1) ∧
    ∃ pd2, getPage remote springboard
        { page := 2, subDomain := springboard.subDomain, path := path } = (Except.ok pd2, 1) ∧
      pd2.elements = d2.results := by
  refine ⟨rfl, ?_, ?_⟩
  · have hgp := getPage_ok remote springboard
      { page := 1, subDomain := springboard.subDomain, path := path } d1 tp rfl h1 hp
    rw [getFirstPage, hgp]
    simp [htp]
  · exact getPage_elements remote springboard
      { page := 2, subDomain := springboard.subDomain, path := path } d2 rfl h2

/-- Witness for C6 over the concrete three-page remote. -/
theorem cursor_round_trip_witness :
    (demoRemote "acme" "items" 1 =
        Except.ok ({ results := [1], pages := some 3, error := none } : Response Nat) ∧
      (1 : Nat) < 3 ∧
      demoRemote "acme" "items" 2 =
        Except.ok ({ results := [2], pages := some 3, error := none } : Response Nat)) ∧
    (getFirstPage demoRemote { subDomain := "acme", token := "t" } "items" =
        getPage demoRemote { subDomain := "acme", token := "t" }
          { page := 1, subDomain := "acme", path := "items" } ∧
      getFirstPage demoRemote { subDomain := "acme", token := "t" } "items" =
        (Except.ok ({ next := some ({ page := 2, subDomain := "acme", path := "items" } : Cursor),
                      elements := [1] } : PageData Nat), 1) ∧
      ∃ pd2, getPage demoRemote { subDomain := "acme", token := "t" }
          { page := 2, subDomain := "acme", path := "items" } = (Except.ok pd2, 1) ∧
        pd2.elements = [2]) :=
  ⟨⟨rfl, by decide, rfl⟩,
    cursor_round_trip demoRemote { subDomain := "acme", token := "t" } "items"
      ({ results := [1], pages := some 3, error := none } : Response Nat)
      ({ results := [2], pages := some 3, error := none } : Response Nat) 3
      rfl rfl (by decide) rfl⟩

/-! ### C7, C8: retry behaviour of the page fetch -/

/-- C7: a response whose decoded body contains the error-indicator field makes
the page fetch fail immediately with a RemoteError carrying that field's
message, after exactly one call to the underlying fetch operation — the
semantic failure is not retried (the retry bound of 5 is never reached). -/
theorem semantic_error_no_retry (op : Nat → Except String (Response α))
    (d : Response α) (msg : String)
    (h0 : op 0 = Except.ok d) (he : d.error = some msg) :
    getRawPage op = (Except.error (FetchErr.remote msg), 1) := by
  simp [getRawPage, retryRun, retryGo, h0, he]

/-- Witness for C7. -/
theorem semantic_error_no_retry_witness :
    (demoErrOp 0 = Except.ok ({ results := [], pages := some 1, error := some "bad" } : Response Nat) ∧
      ({ results := [], pages := some 1, error := some "bad" } : Response Nat).error = some "bad") ∧
    getRawPage demoErrOp = (Except.error (FetchErr.remote "bad"), 1) :=
  ⟨⟨rfl, rfl⟩,
    semantic_error_no_retry demoErrOp
      ({ results := [], pages := some 1, error := some "bad" } : Response Nat) "bad" rfl rfl⟩

/-- C8: transport failures are retried up to the fixed bound of 5 attempts.
An operation that fails transiently twice and then succeeds with a clean body
yields the normal successful result after 3 calls, with no error surfaced;
an operation that fails on every attempt exhausts the bound — exactly 5 calls
— and the page fetch fails with a TransportError re-raising the last
failure. -/
theorem transport_retry_bound (op1 op2 : Nat → Except String (Response α))
    (d : Response α) (m : Nat → String)
    (h10 : op1 0 = Except.error (m 0)) (h11 : op1 1 = Except.error (m 1))
    (h12 : op1 2 = Except.ok d) (hd : d.error = none)
    (h2 : ∀ i, op2 i = Except.error (m i)) :
    getRawPage op1 = (Except.ok d, 3) ∧
    getRawPage op2 = (Except.error (FetchErr.transport (m 4)), 5) := by
  constructor
  · simp [getRawPage, retryRun, retryGo, h10, h11, h12, hd]
  · simp [getRawPage, retryRun, retryGo, h2]

/-- Witness for C8: a twice-failing-then-succeeding operation and an
always-failing operation. -/
theorem transport_retry_bound_witness :
    (demoFlakyOp 0 = Except.error "net" ∧ demoFlakyOp 1 = Except.error "net" ∧
      demoFlakyOp 2 = Except.ok ({ results := [9], pages := some 1, error := none } : Response Nat) ∧
      ({ results := [9], pages := some 1, error := none } : Response Nat).error = none ∧
      (∀ i, demoFailOp i = Except.error "net")) ∧
    getRawPage demoFlakyOp =
      (Except.ok ({ results := [9], pages := some 1, error := none } : Response Nat), 3) ∧
    getRawPage demoFailOp = (Except.error (FetchErr.transport "net"), 5) :=
  ⟨⟨rfl, rfl, rfl, rfl, fun _ => rfl⟩,
    transport_retry_bound demoFlakyOp demoFailOp
      ({ results := [9], pages := some 1, error := none } : Response Nat) (fun _ => "net")
      rfl rfl rfl rfl (fun _ => rfl)⟩

/-! ### C9: the page callback's arguments -/

lemma iterGo_record (pagesL : List (List α)) :
    ∀ (fuel p : Nat) (pgs : Option Nat) (acc : List (List α)),
      loopCond p pgs = decide (p < pagesL.length) →
      pagesL.length - p < fuel →
      iterGo (fixedRemote pagesL)
          (fun (s : List (List α)) (xs : List α) => (s ++ [xs], false)) fuel p pgs acc =
        some (acc ++ (List.range' (p + 1) (pagesL.length - p)).map
            (fun k => pagesL.getD (k - 1) []),
          List.range' (p + 1) (pagesL.length - p), none) := by
  intro fuel
  induction fuel with
  | zero => intro p pgs acc _ hf; omega
  | succ fuel ih =>
    intro p pgs acc hc hf
    by_cases hp : p < pagesL.length
    · have hc' : loopCond p pgs = true := by rw [hc]; simp [hp]
      have hf' : pagesL.length - (p + 1) < fuel := by omega
      have hrec := ih (p + 1) (some pagesL.length) (acc ++ [pagesL.getD p []]) rfl hf'
      have hn : pagesL.length - p = (pagesL.length - (p + 1)) + 1 := by omega
      simp only [iterGo, hc', if_true, fixedRemote, Nat.add_sub_cancel]
      rw [hrec]
      simp [hn, List.range'_succ, List.append_assoc]
    · have hc' : loopCond p pgs = false := by rw [hc]; simp [hp]
      have hn : pagesL.length - p = 0 := by omega
      simp [iterGo, hc', hn]

lemma iterGoAlt_record (pagesL : List (List α)) (sb : Springboard) (path : String) :
    ∀ (fuel p : Nat) (pgs : Option Nat) (acc : List (List α × CursorAlt)),
      loopCond p pgs = decide (p < pagesL.length) →
      pagesL.length - p < fuel →
      iterGoAlt (fixedRemote pagesL) sb path recordingConsumer fuel p pgs acc =
        some (acc ++ (List.range' (p + 1) (pagesL.length - p)).map
            (fun k => (pagesL.getD (k - 1) [],
              { page := k, springboard := sb, path := path })),
          List.range' (p + 1) (pagesL.length - p), none) := by
  intro fuel
  induction fuel with
  | zero => intro p pgs acc _ hf; omega
  | succ fuel ih =>
    intro p pgs acc hc hf
    by_cases hp : p < pagesL.length
    · have hc' : loopCond p pgs = true := by rw [hc]; simp [hp]
      have hf' : pagesL.length - (p + 1) < fuel := by omega
      have hrec := ih (p + 1) (some pagesL.length)
        (acc ++ [(pagesL.getD p [], { page := p + 1, springboard := sb, path := path })])
        rfl hf'
      have hn : pagesL.length - p = (pagesL.length - (p + 1)) + 1 := by omega
      simp only [iterGoAlt, hc', if_true, fixedRemote, Nat.add_sub_cancel,
        recordingConsumer]
      rw [hrec]
      simp [hn, List.range'_succ, List.append_assoc]
    · have hc' : loopCond p pgs = false := by rw [hc]; simp [hp]
      have hn : pagesL.length - p = 0 := by omega
      simp [iterGoAlt, hc', hn]

/-- C9 counterexample: in the main module (src/index.js line 88) the page
callback is invoked as `consumer(data.results, cancel)` — the cursor that
`iteratePages` builds is used only for the fetch and is not among the
callback's arguments.  Concretely: over a two-page collection whose pages
carry identical records, the two callback invocations of the main module's
`iteratePages` receive exactly the same data (the records `[5]` both times,
first conjunct), even though the distinct pages 1 and 2 were fetched — so no
argument describing the just-fetched page is passed, refuting the claim for
src/index.js.  The alternate module's `iteratePages` does pass such a cursor:
its two recorded invocations differ (second conjunct), precisely in the
cursor's page number (third conjunct). -/
theorem iteratePages_no_cursor_counterexample :
    iteratePages (fixedRemote ([[5], [5]] : List (List Nat)))
        (fun (s : List (List Nat)) (xs : List Nat) => (s ++ [xs], false)) 3 [] =
      some ([[5], [5]], [1, 2], none) ∧
    iteratePagesAlt (fixedRemote ([[5], [5]] : List (List Nat)))
        { subDomain := "a", token := "t" } "items" recordingConsumer 3 [] =
      some ([([5], { page := 1, springboard := { subDomain := "a", token := "t" },
                     path := "items" }),
             ([5], { page := 2, springboard := { subDomain := "a", token := "t" },
                     path := "items" })], [1, 2], none) ∧
    ({ page := 1, springboard := { subDomain := "a", token := "t" },
       path := "items" } : CursorAlt) ≠
      { page := 2, springboard := { subDomain := "a", token := "t" }, path := "items" } :=
  ⟨by decide, by decide, by decide⟩

/-- C9 (amended): the main module's `iteratePages` (src/index.js) invokes the
page callback exactly once per fetched page with the page's records and a
cancel function but no cursor — the recorded invocations are exactly pages
1..n's results arrays in fetch order — while the alternate module's
`iteratePages` (src/unnamed/part_000) additionally passes a cursor describing
the just-fetched page: its page number `k`, the tenant (which carries the
subdomain) and the path. -/
theorem iteratePages_callback_arguments (pagesL : List (List α)) (sb : Springboard)
    (path : String) (h : pagesL ≠ []) :
    iteratePages (fixedRemote pagesL)
        (fun (s : List (List α)) (xs : List α) => (s ++ [xs], false))
        (pagesL.length + 1) [] =
      some ((List.range' 1 pagesL.length).map (fun k => pagesL.getD (k - 1) []),
        List.range' 1 pagesL.length, none) ∧
    iteratePagesAlt (fixedRemote pagesL) sb path recordingConsumer
        (pagesL.length + 1) [] =
      some ((List.range' 1 pagesL.length).map
          (fun k => (pagesL.getD (k - 1) [],
            { page := k, springboard := sb, path := path })),
        List.range' 1 pagesL.length, none) := by
  have hn : 0 < pagesL.length := List.length_pos.mpr h
  constructor
  · have hmain := iterGo_record pagesL (pagesL.length + 1) 0 (some 1) []
      (by simp [loopCond, hn]) (by omega)
    simpa [iteratePages] using hmain
  · have hmain := iterGoAlt_record pagesL sb path (pagesL.length + 1) 0 (some 1) []
      (by simp [loopCond, hn]) (by omega)
    simpa [iteratePagesAlt] using hmain

/-- Witness for C9 (amended) at two pages. -/
theorem iteratePages_callback_arguments_witness :
    ([[0, 1], [2, 3]] : List (List Nat)) ≠ [] ∧
    (iteratePages (fixedRemote ([[0, 1], [2, 3]] : List (List Nat)))
        (fun (s : List (List Nat)) (xs : List Nat) => (s ++ [xs], false)) 3 [] =
      some ([[0, 1], [2, 3]], [1, 2], none) ∧
    iteratePagesAlt (fixedRemote ([[0, 1], [2, 3]] : List (List Nat)))
        { subDomain := "acme", token := "t" } "items" recordingConsumer 3 [] =
      some ([([0, 1], { page := 1, springboard := { subDomain := "acme", token := "t" },
                        path := "items" }),
             ([2, 3], { page := 2, springboard := { subDomain := "acme", token := "t" },
                        path := "items" })],
        [1, 2], none)) :=
  ⟨by decide,
    by
      have h := iteratePages_callback_arguments ([[0, 1], [2, 3]] : List (List Nat))
        { subDomain := "acme", token := "t" } "items" (by decide)
      exact ⟨h.1.trans (by decide), h.2.trans (by decide)⟩⟩

/-! ### C10: missing page-count field -/

lemma consumeAll_elemWalk_push (acc : List α) (ls : List (List α)) :
    consumeAll (elemWalk (fun (a : List α) x => (a ++ [x], false))) acc ls =
      acc ++ ls.flatten := by
  induction ls generalizing acc with
  | nil => simp [consumeAll]
  | cons xs rest ih => simp [consumeAll, elemWalk_push, ih]

lemma iterGo_none_terminates (fetch : Nat → Except FetchErr (Response α))
    (consumer : σ → List α → σ × Bool) (hnc : noCancel consumer)
    (ds : Nat → Response α) (j : Nat) (hnone : (ds j).pages = none) :
    ∀ (fuel p : Nat) (pgs : Option Nat) (s : σ),
      p < j → loopCond p pgs = true →
      (∀ i, p < i → i ≤ j → fetch i = Except.ok (ds i)) →
      (∀ i, p < i → i < j → loopCond i (ds i).pages = true) →
      j - p < fuel →
      iterGo fetch consumer fuel p pgs s =
        some (consumeAll consumer s
            ((List.range' (p + 1) (j - p)).map (fun i => (ds i).results)),
          List.range' (p + 1) (j - p), none) := by
  intro fuel
  induction fuel with
  | zero => intro p pgs s _ _ _ _ hf; omega
  | succ fuel ih =>
    intro p pgs s hpj hc hok hcont hf
    have hfetch : fetch (p + 1) = Except.ok (ds (p + 1)) :=
      hok (p + 1) (by omega) (by omega)
    have hb : (consumer s (ds (p + 1)).results).2 = false := hnc s _
    have hn : j - p = (j - (p + 1)) + 1 := by omega
    by_cases hq : p + 1 = j
    · have hstop : loopCond (p + 1) (ds (p + 1)).pages = false := by
        rw [hq, hnone]
        rfl
      have hfuel1 : 1 ≤ fuel := by omega
      have hrec : iterGo fetch consumer fuel (p + 1) (ds (p + 1)).pages
          (consumer s (ds (p + 1)).results).1 =
          some ((consumer s (ds (p + 1)).results).1, [], none) := by
        cases fuel with
        | zero => omega
        | succ f => simp [iterGo, hstop]
      simp only [iterGo, hc, if_true, hfetch, hb, Bool.false_eq_true, if_false]
      rw [hrec]
      have hqp : j - p = 1 := by omega
      simp [hqp, List.range', consumeAll]
    · have hcn : loopCond (p + 1) (ds (p + 1)).pages = true :=
        hcont (p + 1) (by omega) (by omega)
      have hrec := ih (p + 1) (ds (p + 1)).pages (consumer s (ds (p + 1)).results).1
        (by omega) hcn (fun i h1 h2 => hok i (by omega) h2)
        (fun i h1 h2 => hcont i (by omega) h2) (by omega)
      simp only [iterGo, hc, if_true, hfetch, hb, Bool.false_eq_true, if_false]
      rw [hrec]
      simp [hn, List.range'_succ, consumeAll]

/-- C10: a response lacking the numeric page-count field (`pages` absent or
undefined) at ANY point of the iteration raises no error.  If the run proceeds
normally to page j (every earlier page decodes and its freshly reported total
keeps the loop going) and page j's body has no `pages` field, the JS
comparison `page < undefined` evaluates false, so page j's records are still
delivered to the consumer and the iteration then terminates normally — exactly
pages 1..j are fetched and the final state is the consumer folded over pages
1..j's records.  This holds for `iteratePages` with any non-cancelling
consumer, and consequently for `iterate`/`getAll`, which returns precisely the
records of pages 1..j. -/
theorem missing_pages_field_safe (fetch : Nat → Except FetchErr (Response α))
    (consumer : σ → List α → σ × Bool) (s0 : σ) (ds : Nat → Response α) (j fuel : Nat)
    (hnc : noCancel consumer) (hj : 1 ≤ j)
    (hok : ∀ i, 1 ≤ i → i ≤ j → fetch i = Except.ok (ds i))
    (hcont : ∀ i, 1 ≤ i → i < j → loopCond i (ds i).pages = true)
    (hnone : (ds j).pages = none) (hfuel : j < fuel) :
    iteratePages fetch consumer fuel s0 =
      some (consumeAll consumer s0 ((List.range' 1 j).map (fun i => (ds i).results)),
        List.range' 1 j, none) ∧
    getAll fetch fuel =
      some (((List.range' 1 j).map (fun i => (ds i).results)).flatten,
        List.range' 1 j, none) := by
  constructor
  · have h := iterGo_none_terminates fetch consumer hnc ds j hnone fuel 0 (some 1) s0
      (by omega) (by simp [loopCond]) (fun i h1 h2 => hok i (by omega) h2)
      (fun i h1 h2 => hcont i (by omega) h2) (by omega)
    simpa [iteratePages] using h
  · have hpush : noCancel (elemWalk (fun (acc : List α) x => (acc ++ [x], false))) := by
      intro s xs
      rw [elemWalk_push]
    have h := iterGo_none_terminates fetch
      (elemWalk (fun (acc : List α) x => (acc ++ [x], false))) hpush ds j hnone
      fuel 0 (some 1) []
      (by omega) (by simp [loopCond]) (fun i h1 h2 => hok i (by omega) h2)
      (fun i h1 h2 => hcont i (by omega) h2) (by omega)
    simpa [getAll, iterate, iteratePages, consumeAll_elemWalk_push] using h

/-- Witness for C10 at a mid-iteration occurrence: page 1 reports `pages: 3`
but page 2's body lacks the field entirely; the run delivers pages 1 and 2 and
stops normally after page 2. -/
theorem missing_pages_field_safe_witness :
    (noCancel (fun (s : List (List Nat)) (xs : List Nat) => (s ++ [xs], false)) ∧
      (1 : Nat) ≤ 2 ∧
      (∀ i, 1 ≤ i → i ≤ 2 → demoMidNoPagesFetch i = Except.ok (demoMidNoPagesBody i)) ∧
      (∀ i, 1 ≤ i → i < 2 → loopCond i (demoMidNoPagesBody i).pages = true) ∧
      (demoMidNoPagesBody 2).pages = none ∧ (2 : Nat) < 3) ∧
    iteratePages demoMidNoPagesFetch
        (fun (s : List (List Nat)) (xs : List Nat) => (s ++ [xs], false)) 3 [] =
      some ([[1], [2]], [1, 2], none) ∧
    getAll demoMidNoPagesFetch 3 = some ([1, 2], [1, 2], none) :=
  ⟨⟨fun _ _ => rfl, by decide, fun i _ _ => rfl,
      fun i h1 h2 => by
        have hi : i = 1 := by omega
        subst hi
        decide,
      rfl, by decide⟩,
    by
      have h := missing_pages_field_safe demoMidNoPagesFetch
        (fun (s : List (List Nat)) (xs : List Nat) => (s ++ [xs], false)) []
        demoMidNoPagesBody 2 3 (fun _ _ => rfl) (by decide)
        (fun i _ _ => rfl)
        (fun i h1 h2 => by
          have hi : i = 1 := by omega
          subst hi
          decide)
        rfl (by decide)
      exact ⟨h.1.trans (by decide), h.2.trans (by decide)⟩⟩
